import Mathlib

/-!
Shallow embedding of the counting-semaphore core `src/pkg/os/src/os_sem.c`
(functions `os_sem_create`, `os_sem_release`, `os_sem_pend`, `os_sem_delete`).

Modelling conventions:
* A task descriptor keeps the two fields the semaphore code touches:
  `t_prio` (fixed priority, lower value = higher priority) and `t_flags`
  (a bitset; the semaphore touches only the `OS_TASK_FLAG_SEM_WAIT` bit).
  Tasks are identified by a natural-number id; a task table `Nat → OsTask`
  plays the role of the task structs in memory.
* The intrusive singly linked list rooted at `sem_head` (links `t_sem_list`)
  is modelled as a `List Nat` of task ids; membership in the list is the
  link being live, removal from the list is `SLIST_REMOVE_HEAD` followed by
  `SLIST_NEXT(rdy, t_sem_list) = NULL`.
* `sem_tokens` is a C `uint16_t`; arithmetic on it is done modulo `2 ^ 16`
  where the C can overflow (the `sem_tokens++` in `os_sem_release`).
* The `NULL` semaphore pointer check at the top of each entry point is
  modelled by an `Option` wrapper around the core function.
* Each operation is split at its critical-section / scheduler-bridge
  boundary exactly as the C is: `os_sem_pend` becomes the critical-section
  part `os_sem_pend_cs` (everything up to `OS_EXIT_CRITICAL`) plus the
  resume part `os_sem_pend_resume` (the flag inspection after
  `os_sched_sleep` returns).  Calls into the scheduler bridge
  (`os_sched_wakeup`, `os_sched`) are recorded in the result structures
  (`woken`, `resched`) since the bridge is external to this component.
-/

/-- `os_error_t` return codes used by `os_sem.c`. -/
inductive os_error where
  | OS_OK
  | OS_TIMEOUT
  | OS_INVALID_PARM
deriving DecidableEq, Repr

open os_error

/-- Bit index of the sem-wait bit inside `t_flags`. -/
def semWaitBit : Nat := 1

/-- `OS_TASK_FLAG_SEM_WAIT`: the single `t_flags` bit the semaphore code
sets, clears and tests. -/
def OS_TASK_FLAG_SEM_WAIT : Nat := 2 ^ semWaitBit

/-- The task-descriptor fields touched by `os_sem.c`: `t_prio` and
`t_flags`. -/
structure OsTask where
  t_prio : Nat
  t_flags : Nat
deriving DecidableEq, Repr

/-- `struct os_sem`: token count plus the head of the intrusive wait
list. -/
structure OsSem where
  sem_tokens : Nat
  sem_head : List Nat
deriving DecidableEq, Repr

/-- Point update of the task table (a store to one task struct). -/
def updTask (tasks : Nat → OsTask) (i : Nat) (t : OsTask) : Nat → OsTask :=
  fun j => if j = i then t else tasks j

/-- `t_flags |= OS_TASK_FLAG_SEM_WAIT`. -/
def setSemWait (f : Nat) : Nat := f ||| OS_TASK_FLAG_SEM_WAIT

/-- `t_flags &= ~OS_TASK_FLAG_SEM_WAIT`.  On a bitset, clearing a single
bit is the identity when the bit is clear and an xor with the bit when it
is set. -/
def clrSemWait (f : Nat) : Nat :=
  if f.testBit semWaitBit then f ^^^ OS_TASK_FLAG_SEM_WAIT else f

/-- `os_sem_create` (lines 38-49): reject a `NULL` handle, otherwise set
`sem_tokens` to the (uint16-truncated) initial count and make the wait
list empty.  Returns the error code and the written-back semaphore. -/
def os_sem_create (sem : Option OsSem) (tokens : Nat) :
    os_error × Option OsSem :=
  match sem with
  | none => (OS_INVALID_PARM, none)
  | some _ => (OS_OK, some { sem_tokens := tokens % 2 ^ 16, sem_head := [] })

/-- Result of `os_sem_release`: return code, updated semaphore and task
table, the task passed to `os_sched_wakeup` (if any), and whether
`os_sched` was invoked after the critical section. -/
structure ReleaseResult where
  rc : os_error
  sem : OsSem
  tasks : Nat → OsTask
  woken : Option Nat
  resched : Bool

/-- `os_sem_release` (lines 62-111), non-NULL case.  If a task waits,
clear its sem-wait flag, pop it off the list, null its link, wake it, and
reschedule iff it outranks the current task; otherwise bank one token
(uint16 increment). -/
def os_sem_release (tasks : Nat → OsTask) (current : Nat) (sem : OsSem) :
    ReleaseResult :=
  match sem.sem_head with
  | [] =>
      { rc := OS_OK
        sem := { sem with sem_tokens := (sem.sem_tokens + 1) % 2 ^ 16 }
        tasks := tasks
        woken := none
        resched := false }
  | rdy :: rest =>
      let tasks' := updTask tasks rdy
        { tasks rdy with t_flags := clrSemWait (tasks rdy).t_flags }
      { rc := OS_OK
        sem := { sem with sem_head := rest }
        tasks := tasks'
        woken := some rdy
        resched := decide ((tasks rdy).t_prio < (tasks current).t_prio) }

/-- The `SLIST_FOREACH` insertion scan of `os_sem_pend` (lines 162-177):
walk from the head, stop at the first entry whose priority value is
strictly greater than the caller's, and splice the caller in right there
(`SLIST_INSERT_AFTER` the last passed entry, or `SLIST_INSERT_HEAD` when
none was passed). -/
def sem_insert (tasks : Nat → OsTask) (current : Nat) :
    List Nat → List Nat
  | [] => [current]
  | entry :: rest =>
      if (tasks current).t_prio < (tasks entry).t_prio then
        current :: entry :: rest
      else
        entry :: sem_insert tasks current rest

/-- What `os_sem_pend` decides to do inside its critical section. -/
inductive PendAction where
  | ret (rc : os_error)
  | sleep
deriving DecidableEq, Repr

/-- State after the critical section of `os_sem_pend`. -/
structure PendCS where
  sem : OsSem
  tasks : Nat → OsTask
  action : PendAction

/-- `os_sem_pend`, critical-section part (lines 148-183), non-NULL case:
take a token if one is available; fail fast on a zero timeout; otherwise
set the caller's sem-wait flag, insert it into the wait list in priority
order, and mark that the caller must be put to sleep. -/
def os_sem_pend_cs (tasks : Nat → OsTask) (current : Nat) (sem : OsSem)
    (timeout : Nat) : PendCS :=
  if sem.sem_tokens ≠ 0 then
    { sem := { sem with sem_tokens := sem.sem_tokens - 1 }
      tasks := tasks
      action := .ret OS_OK }
  else if timeout = 0 then
    { sem := sem, tasks := tasks, action := .ret OS_TIMEOUT }
  else
    let tasks' := updTask tasks current
      { tasks current with t_flags := setSemWait (tasks current).t_flags }
    { sem := { sem with sem_head := sem_insert tasks' current sem.sem_head }
      tasks := tasks'
      action := .sleep }

/-- `os_sem_pend`, resume part (lines 185-200): after `os_sched_sleep`
returns, inspect the caller's sem-wait flag; still set means the sleep
timed out (clear the flag, report `OS_TIMEOUT`), already cleared means a
releaser handed over the token (`OS_OK`).  Only `t_flags` of the caller
is touched; the semaphore itself is not. -/
def os_sem_pend_resume (tasks : Nat → OsTask) (current : Nat) :
    os_error × (Nat → OsTask) :=
  if (tasks current).t_flags &&& OS_TASK_FLAG_SEM_WAIT ≠ 0 then
    (OS_TIMEOUT,
      updTask tasks current
        { tasks current with t_flags := clrSemWait (tasks current).t_flags })
  else
    (OS_OK, tasks)

/-- Modelled from the spec: `os_sched_next_task` lives in the scheduler
(`os_sched.c`, not under `src/`).  Per the bridge contract it is "used
only by delete, to determine whether eviction created a higher-priority
runnable task than the caller": it returns the best (lowest
priority-value) ready task when some ready task outranks the current one,
and the current task otherwise. -/
def os_sched_next_task (tasks : Nat → OsTask) (current : Nat)
    (ready : List Nat) : Nat :=
  match ready.filter (fun t => (tasks t).t_prio < (tasks current).t_prio) with
  | [] => current
  | t :: ts =>
      (t :: ts).foldl
        (fun b x => if (tasks x).t_prio < (tasks b).t_prio then x else b) t

/-- Result of `os_sem_delete`: return code, updated semaphore and task
table, the tasks passed to `os_sched_wakeup` in drain order, and whether
`os_sched` was invoked. -/
structure DeleteResult where
  rc : os_error
  sem : OsSem
  tasks : Nat → OsTask
  woken : List Nat
  resched : Bool

/-- `os_sem_delete` (lines 216-257), non-NULL case: zero the token count,
pop every waiting task off the list (nulling its link) and wake it — the
drain loop does not touch `t_flags` — then ask the scheduler for the next
ready task (`ready` is the set of other ready tasks, to which the drained
waiters now belong) and call `os_sched` iff it differs from the current
task. -/
def os_sem_delete (tasks : Nat → OsTask) (current : Nat)
    (ready : List Nat) (sem : OsSem) : DeleteResult :=
  let woken := sem.sem_head
  let rdy := os_sched_next_task tasks current (ready ++ woken)
  { rc := OS_OK
    sem := { sem_tokens := 0, sem_head := [] }
    tasks := tasks
    woken := woken
    resched := decide (rdy ≠ current) }

/-! ### Bit-level lemmas about the sem-wait flag operations -/

theorem updTask_same (tasks : Nat → OsTask) (i : Nat) (t : OsTask) :
    updTask tasks i t i = t := by
  simp [updTask]

theorem updTask_other (tasks : Nat → OsTask) (i : Nat) (t : OsTask) (j : Nat)
    (h : j ≠ i) : updTask tasks i t j = tasks j := by
  simp [updTask, h]

theorem testBit_setSemWait_self (f : Nat) :
    (setSemWait f).testBit semWaitBit = true := by
  simp [setSemWait, OS_TASK_FLAG_SEM_WAIT, Nat.testBit_lor,
    Nat.testBit_two_pow_self]

theorem testBit_setSemWait_other (f b : Nat) (h : b ≠ semWaitBit) :
    (setSemWait f).testBit b = f.testBit b := by
  simp [setSemWait, OS_TASK_FLAG_SEM_WAIT, Nat.testBit_lor,
    Nat.testBit_two_pow_of_ne (Ne.symm h)]

theorem testBit_clrSemWait_self (f : Nat) :
    (clrSemWait f).testBit semWaitBit = false := by
  unfold clrSemWait
  by_cases hf : f.testBit semWaitBit = true
  · simp [hf, OS_TASK_FLAG_SEM_WAIT, Nat.testBit_xor, Nat.testBit_two_pow_self]
  · simp [hf]

theorem testBit_clrSemWait_other (f b : Nat) (h : b ≠ semWaitBit) :
    (clrSemWait f).testBit b = f.testBit b := by
  unfold clrSemWait
  by_cases hf : f.testBit semWaitBit = true
  · simp [hf, OS_TASK_FLAG_SEM_WAIT, Nat.testBit_xor,
      Nat.testBit_two_pow_of_ne (Ne.symm h)]
  · simp [hf]

/-- The C test `t_flags & OS_TASK_FLAG_SEM_WAIT` is nonzero exactly when
the sem-wait bit is set. -/
theorem semWait_test_iff (f : Nat) :
    f &&& OS_TASK_FLAG_SEM_WAIT ≠ 0 ↔ f.testBit semWaitBit = true := by
  rw [OS_TASK_FLAG_SEM_WAIT, Nat.and_two_pow]
  cases hf : f.testBit semWaitBit <;> simp [hf]

/-! ### C1: delete drains the queue; waiters time out -/

/-- C1 counterexample: delete does not clear an evicted waiter's wait
flag.  A semaphore with the single waiter task `0` (enqueued, sem-wait
flag set) is deleted; task `0` is evicted and woken, yet its
`OS_TASK_FLAG_SEM_WAIT` bit is still set afterwards, contradicting the
claim's "clears each evicted task's wait flag". -/
theorem os_sem_delete_flag_not_cleared_cex :
    (os_sem_delete (fun _ => { t_prio := 1, t_flags := OS_TASK_FLAG_SEM_WAIT })
        1 [] { sem_tokens := 0, sem_head := [0] }).woken = [0] ∧
    ((os_sem_delete (fun _ => { t_prio := 1, t_flags := OS_TASK_FLAG_SEM_WAIT })
        1 [] { sem_tokens := 0, sem_head := [0] }).tasks 0).t_flags &&&
      OS_TASK_FLAG_SEM_WAIT ≠ 0 := by
  decide

/-- C1 (amended): deleting a semaphore with a non-empty wait queue forces
`token_count` to zero, removes every task from the wait queue and
requests a wake for each, leaving the queue empty; each evicted task's
wait flag is left untouched (so it is still set for a blocked waiter),
and it is exactly that still-set flag that makes every woken waiter's
subsequent pend resume report `OS_TIMEOUT`, never `OS_OK`. -/
theorem os_sem_delete_drains_and_waiters_time_out
    (tasks : Nat → OsTask) (current : Nat) (ready : List Nat) (sem : OsSem)
    (_hne : sem.sem_head ≠ [])
    (hwait : ∀ t ∈ sem.sem_head,
      (tasks t).t_flags &&& OS_TASK_FLAG_SEM_WAIT ≠ 0) :
    (os_sem_delete tasks current ready sem).rc = OS_OK ∧
    (os_sem_delete tasks current ready sem).sem.sem_tokens = 0 ∧
    (os_sem_delete tasks current ready sem).sem.sem_head = [] ∧
    (os_sem_delete tasks current ready sem).woken = sem.sem_head ∧
    (∀ t ∈ sem.sem_head,
      ((os_sem_delete tasks current ready sem).tasks t).t_flags =
        (tasks t).t_flags ∧
      (os_sem_pend_resume (os_sem_delete tasks current ready sem).tasks t).1 =
        OS_TIMEOUT) := by
  refine ⟨rfl, rfl, rfl, rfl, ?_⟩
  intro t ht
  refine ⟨rfl, ?_⟩
  have h := hwait t ht
  simp [os_sem_delete, os_sem_pend_resume, h]

/-- C1 witness: the amended theorem applied to the one-waiter semaphore
used by the counterexample. -/
theorem os_sem_delete_drains_and_waiters_time_out_witness :
    (os_sem_delete (fun _ => { t_prio := 1, t_flags := OS_TASK_FLAG_SEM_WAIT })
        1 [] { sem_tokens := 0, sem_head := [0] }).rc = OS_OK ∧
    (os_sem_delete (fun _ => { t_prio := 1, t_flags := OS_TASK_FLAG_SEM_WAIT })
        1 [] { sem_tokens := 0, sem_head := [0] }).sem.sem_tokens = 0 ∧
    (os_sem_delete (fun _ => { t_prio := 1, t_flags := OS_TASK_FLAG_SEM_WAIT })
        1 [] { sem_tokens := 0, sem_head := [0] }).sem.sem_head = [] ∧
    (os_sem_delete (fun _ => { t_prio := 1, t_flags := OS_TASK_FLAG_SEM_WAIT })
        1 [] { sem_tokens := 0, sem_head := [0] }).woken = [0] ∧
    (∀ t ∈ [0],
      ((os_sem_delete (fun _ => { t_prio := 1, t_flags := OS_TASK_FLAG_SEM_WAIT })
          1 [] { sem_tokens := 0, sem_head := [0] }).tasks t).t_flags =
        OS_TASK_FLAG_SEM_WAIT ∧
      (os_sem_pend_resume
        (os_sem_delete (fun _ => { t_prio := 1, t_flags := OS_TASK_FLAG_SEM_WAIT })
          1 [] { sem_tokens := 0, sem_head := [0] }).tasks t).1 = OS_TIMEOUT) :=
  os_sem_delete_drains_and_waiters_time_out
    (fun _ => { t_prio := 1, t_flags := OS_TASK_FLAG_SEM_WAIT })
    1 [] { sem_tokens := 0, sem_head := [0] } (by decide) (by decide)

/-! ### C8: create -/

/-- C8: `os_sem_create` fails with `OS_INVALID_PARM` exactly when the
semaphore handle is `NULL`; on a valid handle it sets `sem_tokens` to the
given initial value (a `uint16_t`), empties the wait queue, touches
nothing else (it takes no task table at all) and returns `OS_OK`. -/
theorem os_sem_create_spec (sem : Option OsSem) (s : OsSem) (tokens : Nat)
    (htok : tokens < 2 ^ 16) :
    ((os_sem_create sem tokens).1 = OS_INVALID_PARM ↔ sem = none) ∧
    os_sem_create none tokens = (OS_INVALID_PARM, none) ∧
    os_sem_create (some s) tokens =
      (OS_OK, some { sem_tokens := tokens, sem_head := [] }) := by
  refine ⟨?_, rfl, ?_⟩
  · cases sem <;> simp [os_sem_create]
  · have h : tokens % 65536 = tokens := Nat.mod_eq_of_lt (by omega)
    simp [os_sem_create, h]

/-- C8 witness: creating a semaphore with 3 tokens through a valid
handle, and through a `NULL` handle. -/
theorem os_sem_create_spec_witness :
    ((os_sem_create (some { sem_tokens := 0, sem_head := [] }) 3).1 =
        OS_INVALID_PARM ↔ (some { sem_tokens := 0, sem_head := [] } :
        Option OsSem) = none) ∧
    os_sem_create none 3 = (OS_INVALID_PARM, none) ∧
    os_sem_create (some { sem_tokens := 0, sem_head := [] }) 3 =
      (OS_OK, some { sem_tokens := 3, sem_head := [] }) :=
  os_sem_create_spec (some { sem_tokens := 0, sem_head := [] })
    { sem_tokens := 0, sem_head := [] } 3 (by decide)

/-! ### C6: pend fast paths -/

/-- C6: on a valid semaphore, `os_sem_pend` with a token available
decrements `sem_tokens` by one and returns `OS_OK` without sleeping and
without touching the wait queue or any task; with no token and a zero
timeout it returns `OS_TIMEOUT` without sleeping and with the whole
state unchanged. -/
theorem os_sem_pend_cs_fast_paths (tasks : Nat → OsTask) (current : Nat)
    (sem : OsSem) (timeout : Nat) :
    (sem.sem_tokens ≠ 0 →
      (os_sem_pend_cs tasks current sem timeout).action = .ret OS_OK ∧
      (os_sem_pend_cs tasks current sem timeout).sem.sem_tokens =
        sem.sem_tokens - 1 ∧
      (os_sem_pend_cs tasks current sem timeout).sem.sem_head =
        sem.sem_head ∧
      (os_sem_pend_cs tasks current sem timeout).tasks = tasks) ∧
    (sem.sem_tokens = 0 → timeout = 0 →
      (os_sem_pend_cs tasks current sem timeout).action = .ret OS_TIMEOUT ∧
      (os_sem_pend_cs tasks current sem timeout).sem = sem ∧
      (os_sem_pend_cs tasks current sem timeout).tasks = tasks) := by
  constructor
  · intro h
    simp [os_sem_pend_cs, h]
  · intro h ht
    simp [os_sem_pend_cs, h, ht]

/-! ### C4: release -/

/-- C4: on a valid semaphore, `os_sem_release` returns `OS_OK`; with a
non-empty wait queue it removes exactly the head task, clears that task's
sem-wait flag (altering no other bit of it), detaches its queue link
(once the queue held it only at the head, it is gone from the queue),
wakes it, leaves `sem_tokens` unchanged, and requests a reschedule iff
the woken task's priority value is strictly smaller than the releasing
task's; with an empty wait queue it increments `sem_tokens` by one
(uint16 increment: exact whenever it does not overflow). -/
theorem os_sem_release_spec (tasks : Nat → OsTask) (current : Nat)
    (sem : OsSem) :
    (os_sem_release tasks current sem).rc = OS_OK ∧
    (sem.sem_head = [] →
      (os_sem_release tasks current sem).sem.sem_tokens =
        (sem.sem_tokens + 1) % 2 ^ 16 ∧
      (sem.sem_tokens + 1 < 2 ^ 16 →
        (os_sem_release tasks current sem).sem.sem_tokens =
          sem.sem_tokens + 1) ∧
      (os_sem_release tasks current sem).sem.sem_head = [] ∧
      (os_sem_release tasks current sem).woken = none ∧
      (os_sem_release tasks current sem).resched = false ∧
      (os_sem_release tasks current sem).tasks = tasks) ∧
    (∀ rdy rest, sem.sem_head = rdy :: rest →
      (os_sem_release tasks current sem).sem.sem_head = rest ∧
      (rdy ∉ rest → rdy ∉ (os_sem_release tasks current sem).sem.sem_head) ∧
      (os_sem_release tasks current sem).sem.sem_tokens = sem.sem_tokens ∧
      (os_sem_release tasks current sem).woken = some rdy ∧
      (((os_sem_release tasks current sem).tasks rdy).t_flags).testBit
        semWaitBit = false ∧
      ((os_sem_release tasks current sem).tasks rdy).t_prio =
        (tasks rdy).t_prio ∧
      ((os_sem_release tasks current sem).resched = true ↔
        (tasks rdy).t_prio < (tasks current).t_prio)) := by
  refine ⟨?_, ?_, ?_⟩
  · cases h : sem.sem_head <;> simp [os_sem_release, h]
  · intro h
    simp [os_sem_release, h]
  · intro rdy rest h
    refine ⟨?_, ?_, ?_, ?_, ?_, ?_, ?_⟩ <;>
      simp [os_sem_release, h, updTask_same, testBit_clrSemWait_self]

/-- C4 witness: releasing a semaphore whose queue holds the single waiter
task `0` (priority 1, flag set) while task `7` (priority 5) runs: the head
is popped, its flag cleared, and a reschedule is requested; and the
empty-queue case banks one token. -/
theorem os_sem_release_spec_witness :
    (os_sem_release
      (fun i => { t_prio := if i = 0 then 1 else 5,
                  t_flags := if i = 0 then OS_TASK_FLAG_SEM_WAIT else 0 })
      7 { sem_tokens := 0, sem_head := [0] }).rc = OS_OK ∧
    (os_sem_release
      (fun i => { t_prio := if i = 0 then 1 else 5,
                  t_flags := if i = 0 then OS_TASK_FLAG_SEM_WAIT else 0 })
      7 { sem_tokens := 0, sem_head := [0] }).sem.sem_head = [] ∧
    (os_sem_release
      (fun i => { t_prio := if i = 0 then 1 else 5,
                  t_flags := if i = 0 then OS_TASK_FLAG_SEM_WAIT else 0 })
      7 { sem_tokens := 0, sem_head := [0] }).woken = some 0 ∧
    (os_sem_release
      (fun i => { t_prio := if i = 0 then 1 else 5,
                  t_flags := if i = 0 then OS_TASK_FLAG_SEM_WAIT else 0 })
      7 { sem_tokens := 0, sem_head := [0] }).resched = true ∧
    (os_sem_release
      (fun i => { t_prio := if i = 0 then 1 else 5,
                  t_flags := if i = 0 then OS_TASK_FLAG_SEM_WAIT else 0 })
      7 { sem_tokens := 3, sem_head := [] }).sem.sem_tokens = 4 := by
  have h1 := os_sem_release_spec
    (fun i => { t_prio := if i = 0 then 1 else 5,
                t_flags := if i = 0 then OS_TASK_FLAG_SEM_WAIT else 0 })
    7 { sem_tokens := 0, sem_head := [0] }
  have h2 := os_sem_release_spec
    (fun i => { t_prio := if i = 0 then 1 else 5,
                t_flags := if i = 0 then OS_TASK_FLAG_SEM_WAIT else 0 })
    7 { sem_tokens := 3, sem_head := [] }
  obtain ⟨hrc, -, hcons⟩ := h1
  obtain ⟨h0, h1', h2', h3', -, -, h6'⟩ := hcons 0 [] rfl
  obtain ⟨-, hemp, -⟩ := h2
  obtain ⟨-, hinc, -⟩ := hemp rfl
  exact ⟨hrc, h0, h3', h6'.mpr (by decide), hinc (by decide)⟩

/-! ### C2: tokens-positive implies empty queue -/

/-- The semaphore invariant: a positive token count only ever coexists
with an empty wait queue. -/
def SemInv (sem : OsSem) : Prop := 0 < sem.sem_tokens → sem.sem_head = []

/-- C2: the invariant `token_count > 0 → wait_queue = []` holds for any
semaphore produced by `os_sem_create`, and is preserved by the
critical-section part of `os_sem_pend`, by `os_sem_release` and by
`os_sem_delete`; moreover pend changes the wait queue only when
`sem_tokens` is zero, and release changes `sem_tokens` only when the
wait queue is empty. -/
theorem sem_invariant_preserved (tasks : Nat → OsTask)
    (current : Nat) (ready : List Nat) (sem s0 : OsSem)
    (timeout tokens : Nat) (hinv : SemInv sem) :
    (∀ s', os_sem_create (some s0) tokens = (OS_OK, some s') → SemInv s') ∧
    SemInv (os_sem_pend_cs tasks current sem timeout).sem ∧
    SemInv (os_sem_release tasks current sem).sem ∧
    SemInv (os_sem_delete tasks current ready sem).sem ∧
    ((os_sem_pend_cs tasks current sem timeout).sem.sem_head ≠ sem.sem_head →
      sem.sem_tokens = 0) ∧
    ((os_sem_release tasks current sem).sem.sem_tokens ≠ sem.sem_tokens →
      sem.sem_head = []) := by
  refine ⟨?_, ?_, ?_, ?_, ?_, ?_⟩
  · intro s' hs'
    simp [os_sem_create] at hs'
    intro _
    simp [← hs']
  · by_cases h : sem.sem_tokens ≠ 0
    · intro hpos
      simp [os_sem_pend_cs, h] at hpos ⊢
      exact hinv (by omega)
    · by_cases ht : timeout = 0
      · simpa [os_sem_pend_cs, h, ht] using hinv
      · intro hpos
        simp [os_sem_pend_cs, h, ht] at hpos
        omega
  · cases hh : sem.sem_head with
    | nil => intro _; simp [os_sem_release, hh]
    | cons rdy rest =>
      intro hpos
      simp [os_sem_release, hh] at hpos
      have := hinv hpos
      rw [hh] at this
      exact absurd this (by simp)
  · intro hpos
    simp [os_sem_delete] at hpos
  · by_cases h : sem.sem_tokens ≠ 0
    · simp [os_sem_pend_cs, h]
    · by_cases ht : timeout = 0
      · simp [os_sem_pend_cs, h, ht]
      · intro _
        omega
  · cases hh : sem.sem_head with
    | nil => intro _; rfl
    | cons rdy rest =>
      intro hne
      simp [os_sem_release, hh] at hne

/-- C2 witness: a fresh two-token semaphore, and the three operations
applied to a one-token semaphore with an empty queue. -/
theorem sem_invariant_preserved_witness :
    (∀ s', os_sem_create (some { sem_tokens := 0, sem_head := [] }) 2 =
      (OS_OK, some s') → SemInv s') ∧
    SemInv (os_sem_pend_cs (fun _ => { t_prio := 3, t_flags := 0 }) 0
      { sem_tokens := 1, sem_head := [] } 0).sem ∧
    SemInv (os_sem_release (fun _ => { t_prio := 3, t_flags := 0 }) 0
      { sem_tokens := 1, sem_head := [] }).sem ∧
    SemInv (os_sem_delete (fun _ => { t_prio := 3, t_flags := 0 }) 0 []
      { sem_tokens := 1, sem_head := [] }).sem ∧
    ((os_sem_pend_cs (fun _ => { t_prio := 3, t_flags := 0 }) 0
      { sem_tokens := 1, sem_head := [] } 0).sem.sem_head ≠
        ({ sem_tokens := 1, sem_head := [] } : OsSem).sem_head →
      ({ sem_tokens := 1, sem_head := [] } : OsSem).sem_tokens = 0) ∧
    ((os_sem_release (fun _ => { t_prio := 3, t_flags := 0 }) 0
      { sem_tokens := 1, sem_head := [] }).sem.sem_tokens ≠
        ({ sem_tokens := 1, sem_head := [] } : OsSem).sem_tokens →
      ({ sem_tokens := 1, sem_head := [] } : OsSem).sem_head = []) :=
  sem_invariant_preserved (fun _ => { t_prio := 3, t_flags := 0 }) 0 []
    { sem_tokens := 1, sem_head := [] } { sem_tokens := 0, sem_head := [] }
    0 2 (fun _ => rfl)

/-! ### C3: priority order with FIFO tie-break -/

/-- The wait queue is ascending in priority value. -/
abbrev prioSorted (tasks : Nat → OsTask) (q : List Nat) : Prop :=
  q.Pairwise (fun a b => (tasks a).t_prio ≤ (tasks b).t_prio)

theorem sem_insert_mem (tasks : Nat → OsTask) (cur x : Nat) (q : List Nat) :
    x ∈ sem_insert tasks cur q ↔ x = cur ∨ x ∈ q := by
  induction q with
  | nil => simp [sem_insert]
  | cons e rest ih =>
    by_cases h : (tasks cur).t_prio < (tasks e).t_prio
    · simp [sem_insert, h]
    · simp [sem_insert, h, ih]
      tauto

theorem sem_insert_sorted (tasks : Nat → OsTask) (cur : Nat) (q : List Nat)
    (h : prioSorted tasks q) : prioSorted tasks (sem_insert tasks cur q) := by
  induction q with
  | nil => simp [sem_insert]
  | cons e rest ih =>
    rcases List.pairwise_cons.mp h with ⟨he, hrest⟩
    by_cases hc : (tasks cur).t_prio < (tasks e).t_prio
    · simp only [sem_insert, if_pos hc]
      refine List.Pairwise.cons ?_ h
      intro x hx
      rcases List.mem_cons.mp hx with rfl | hx'
      · exact Nat.le_of_lt hc
      · exact Nat.le_trans (Nat.le_of_lt hc) (he x hx')
    · simp only [sem_insert, if_neg hc]
      refine List.Pairwise.cons ?_ (ih hrest)
      intro x hx
      rcases (sem_insert_mem tasks cur x rest).mp hx with rfl | hx'
      · exact Nat.le_of_not_lt hc
      · exact he x hx'

/-- The caller lands after every entry of equal-or-smaller priority value
and before the first entry of strictly greater priority value. -/
theorem sem_insert_position (tasks : Nat → OsTask) (cur : Nat)
    (q : List Nat) :
    sem_insert tasks cur q =
      q.takeWhile (fun e => decide ((tasks e).t_prio ≤ (tasks cur).t_prio)) ++
      cur ::
        q.dropWhile (fun e => decide ((tasks e).t_prio ≤ (tasks cur).t_prio)) := by
  induction q with
  | nil => simp [sem_insert]
  | cons e rest ih =>
    by_cases hc : (tasks cur).t_prio < (tasks e).t_prio
    · have hb : ¬((tasks e).t_prio ≤ (tasks cur).t_prio) := by omega
      simp [sem_insert, hc, List.takeWhile_cons, List.dropWhile_cons, hb]
    · have hb : (tasks e).t_prio ≤ (tasks cur).t_prio := by omega
      simp [sem_insert, hc, List.takeWhile_cons, List.dropWhile_cons, hb, ih]

/-- Run a sequence of blocking pends (timeout 1 tick) by the given task
ids, accumulating the semaphore and task-table state. -/
def pendAll (tasks : Nat → OsTask) (sem : OsSem) (tids : List Nat) :
    PendCS :=
  tids.foldl (fun st tid => os_sem_pend_cs st.tasks tid st.sem 1)
    { sem := sem, tasks := tasks, action := .ret OS_OK }

/-- The order in which `n` successive releases by `current` service the
wait queue: the tasks handed the token, in hand-off order. -/
def serviceOrder (tasks : Nat → OsTask) (current : Nat) :
    Nat → OsSem → List Nat
  | 0, _ => []
  | n + 1, sem =>
      match (os_sem_release tasks current sem).woken with
      | some t =>
          t :: serviceOrder (os_sem_release tasks current sem).tasks current n
            (os_sem_release tasks current sem).sem
      | none =>
          serviceOrder (os_sem_release tasks current sem).tasks current n
            (os_sem_release tasks current sem).sem

/-- Task table for the spec's `[5, 1, 3]` arrival-order example: task 0
has priority 5, task 1 priority 1, everyone else priority 3. -/
def exTasks513 : Nat → OsTask := fun i =>
  { t_prio := if i = 0 then 5 else if i = 1 then 1 else 3, t_flags := 0 }

/-- Task table in which every task has the same priority. -/
def exTasksEq : Nat → OsTask := fun _ => { t_prio := 4, t_flags := 0 }

/-- C3: a blocking pend inserts the caller before the first queue entry of
strictly greater priority value and after all entries of equal-or-smaller
priority value, keeping the queue sorted by ascending priority with FIFO
order among equals; waiters arriving with priorities `[5, 1, 3]` are
serviced `1, 3, 5`, and two equal-priority waiters enqueued `0` then `1`
are serviced `0` then `1`. -/
theorem pend_queue_priority_fifo (tasks : Nat → OsTask) (cur : Nat)
    (q : List Nat) (hsorted : prioSorted tasks q) :
    prioSorted tasks (sem_insert tasks cur q) ∧
    sem_insert tasks cur q =
      q.takeWhile (fun e => decide ((tasks e).t_prio ≤ (tasks cur).t_prio)) ++
      cur ::
        q.dropWhile (fun e => decide ((tasks e).t_prio ≤ (tasks cur).t_prio)) ∧
    serviceOrder
      (pendAll exTasks513 { sem_tokens := 0, sem_head := [] } [0, 1, 2]).tasks
      9 3
      (pendAll exTasks513 { sem_tokens := 0, sem_head := [] } [0, 1, 2]).sem =
      [1, 2, 0] ∧
    ((pendAll exTasks513 { sem_tokens := 0, sem_head := [] }
        [0, 1, 2]).sem.sem_head.map (fun t => (exTasks513 t).t_prio)) =
      [1, 3, 5] ∧
    serviceOrder
      (pendAll exTasksEq { sem_tokens := 0, sem_head := [] } [0, 1]).tasks 9 2
      (pendAll exTasksEq { sem_tokens := 0, sem_head := [] } [0, 1]).sem =
      [0, 1] := by
  refine ⟨sem_insert_sorted tasks cur q hsorted,
    sem_insert_position tasks cur q, ?_, ?_, ?_⟩ <;> decide

/-- C3 witness: inserting task 2 (priority 3) into the sorted queue
`[1, 0]` (priorities 1, 5). -/
theorem pend_queue_priority_fifo_witness :
    prioSorted exTasks513 (sem_insert exTasks513 2 [1, 0]) ∧
    sem_insert exTasks513 2 [1, 0] =
      [1, 0].takeWhile
        (fun e => decide ((exTasks513 e).t_prio ≤ (exTasks513 2).t_prio)) ++
      2 ::
        [1, 0].dropWhile
          (fun e => decide ((exTasks513 e).t_prio ≤ (exTasks513 2).t_prio)) ∧
    serviceOrder
      (pendAll exTasks513 { sem_tokens := 0, sem_head := [] } [0, 1, 2]).tasks
      9 3
      (pendAll exTasks513 { sem_tokens := 0, sem_head := [] } [0, 1, 2]).sem =
      [1, 2, 0] ∧
    ((pendAll exTasks513 { sem_tokens := 0, sem_head := [] }
        [0, 1, 2]).sem.sem_head.map (fun t => (exTasks513 t).t_prio)) =
      [1, 3, 5] ∧
    serviceOrder
      (pendAll exTasksEq { sem_tokens := 0, sem_head := [] } [0, 1]).tasks 9 2
      (pendAll exTasksEq { sem_tokens := 0, sem_head := [] } [0, 1]).sem =
      [0, 1] :=
  pend_queue_priority_fifo exTasks513 2 [1, 0] (by decide)

/-! ### C5: queue membership after a timed-out pend -/

/-- C5: the code's behaviour at the failing input.  Task 0 pends on an
empty zero-token semaphore with timeout 5 ticks, is enqueued and put to
sleep; the sleep expires with no intervening release, so the resume path
sees the sem-wait flag still set and reports `OS_TIMEOUT` — yet task 0 is
still a member of the semaphore's wait queue: nothing on the timeout path
(nor in the wake/sleep bridge contract) ever unlinks it, contradicting
the claim that a task returning from pend has left the queue. -/
theorem pend_timeout_leaves_caller_enqueued :
    (os_sem_pend_resume
      (os_sem_pend_cs (fun _ => { t_prio := 3, t_flags := 0 }) 0
        { sem_tokens := 0, sem_head := [] } 5).tasks 0).1 = OS_TIMEOUT ∧
    0 ∈ (os_sem_pend_cs (fun _ => { t_prio := 3, t_flags := 0 }) 0
        { sem_tokens := 0, sem_head := [] } 5).sem.sem_head := by
  decide

/-! ### C9: delete's reschedule decision -/

theorem foldl_best_mem (tasks : Nat → OsTask) (a : Nat) (l : List Nat) :
    l.foldl (fun b x => if (tasks x).t_prio < (tasks b).t_prio then x else b)
      a ∈ a :: l := by
  induction l generalizing a with
  | nil => simp
  | cons x xs ih =>
    simp only [List.foldl_cons]
    by_cases h : (tasks x).t_prio < (tasks a).t_prio
    · rw [if_pos h]
      rcases List.mem_cons.mp (ih x) with h1 | h1
      · simp [h1]
      · simp [h1]
    · rw [if_neg h]
      rcases List.mem_cons.mp (ih a) with h1 | h1
      · simp [h1]
      · simp [h1]

/-- The modelled `os_sched_next_task` differs from the current task
exactly when some ready task outranks it. -/
theorem os_sched_next_task_ne_iff (tasks : Nat → OsTask) (current : Nat)
    (ready : List Nat) :
    os_sched_next_task tasks current ready ≠ current ↔
      ∃ t ∈ ready, (tasks t).t_prio < (tasks current).t_prio := by
  unfold os_sched_next_task
  rcases hf : ready.filter
      (fun t => decide ((tasks t).t_prio < (tasks current).t_prio)) with
    _ | ⟨t, ts⟩
  · simp only [hf]
    constructor
    · intro h
      exact absurd rfl h
    · rintro ⟨t, ht, hlt⟩
      have hnone := List.filter_eq_nil_iff.mp hf t ht
      simp at hnone
      omega
  · simp only [hf]
    have hmem : (t :: ts).foldl
        (fun b x => if (tasks x).t_prio < (tasks b).t_prio then x else b)
        t ∈ t :: ts := by
      have h1 := foldl_best_mem tasks t (t :: ts)
      rcases List.mem_cons.mp h1 with h2 | h2
      · rw [h2]; exact List.mem_cons_self t ts
      · exact h2
    have hfold : (t :: ts).foldl
        (fun b x => if (tasks x).t_prio < (tasks b).t_prio then x else b)
        t ∈ ready.filter
          (fun t => decide ((tasks t).t_prio < (tasks current).t_prio)) := by
      rw [hf]; exact hmem
    have hpred := (List.mem_filter.mp hfold).2
    have hlt : (tasks ((t :: ts).foldl
        (fun b x => if (tasks x).t_prio < (tasks b).t_prio then x else b)
        t)).t_prio < (tasks current).t_prio := by simpa using hpred
    constructor
    · intro _
      have htf : t ∈ ready.filter
          (fun t => decide ((tasks t).t_prio < (tasks current).t_prio)) := by
        rw [hf]; exact List.mem_cons_self t ts
      exact ⟨t, (List.mem_filter.mp htf).1, by
        simpa using (List.mem_filter.mp htf).2⟩
    · intro _
      intro heq
      rw [heq] at hlt
      exact Nat.lt_irrefl _ hlt

/-- C9: delete requests a reschedule iff some now-ready task — the
previously ready tasks together with the drained waiters — has a strictly
smaller (better) priority value than the currently running task. -/
theorem os_sem_delete_resched_iff (tasks : Nat → OsTask) (current : Nat)
    (ready : List Nat) (sem : OsSem) :
    (os_sem_delete tasks current ready sem).resched = true ↔
      ∃ t ∈ ready ++ sem.sem_head,
        (tasks t).t_prio < (tasks current).t_prio := by
  have h := os_sched_next_task_ne_iff tasks current (ready ++ sem.sem_head)
  simpa [os_sem_delete] using h

/-! ### C10: frame property on task descriptors -/

theorem updFlag_frame (tasks : Nat → OsTask) (i tid b : Nat)
    (g : Nat → Nat) (hg : ∀ f, (g f).testBit b = f.testBit b) :
    ((updTask tasks i { tasks i with t_flags := g (tasks i).t_flags }
        tid).t_flags.testBit b = ((tasks tid).t_flags).testBit b) ∧
    ((updTask tasks i { tasks i with t_flags := g (tasks i).t_flags }
        tid).t_prio = (tasks tid).t_prio) := by
  by_cases h : tid = i
  · subst h
    simp [updTask, hg]
  · simp [updTask, h]

/-- C10: each semaphore operation changes at most the sem-wait bit of a
task's `t_flags` bitset: every other flag bit of every task, and every
task's priority, is unchanged by the pend critical section, the pend
resume path, release and delete. -/
theorem sem_ops_flag_frame (tasks : Nat → OsTask) (current tid b : Nat)
    (ready : List Nat) (sem : OsSem) (timeout : Nat)
    (hb : b ≠ semWaitBit) :
    (((os_sem_pend_cs tasks current sem timeout).tasks tid).t_flags.testBit
        b = ((tasks tid).t_flags).testBit b ∧
      ((os_sem_pend_cs tasks current sem timeout).tasks tid).t_prio =
        (tasks tid).t_prio) ∧
    (((os_sem_pend_resume tasks current).2 tid).t_flags.testBit b =
        ((tasks tid).t_flags).testBit b ∧
      ((os_sem_pend_resume tasks current).2 tid).t_prio =
        (tasks tid).t_prio) ∧
    (((os_sem_release tasks current sem).tasks tid).t_flags.testBit b =
        ((tasks tid).t_flags).testBit b ∧
      ((os_sem_release tasks current sem).tasks tid).t_prio =
        (tasks tid).t_prio) ∧
    (((os_sem_delete tasks current ready sem).tasks tid).t_flags.testBit b =
        ((tasks tid).t_flags).testBit b ∧
      ((os_sem_delete tasks current ready sem).tasks tid).t_prio =
        (tasks tid).t_prio) := by
  refine ⟨?_, ?_, ?_, ⟨rfl, rfl⟩⟩
  · by_cases h : sem.sem_tokens ≠ 0
    · simp [os_sem_pend_cs, h]
    · by_cases ht : timeout = 0
      · simp [os_sem_pend_cs, h, ht]
      · have := updFlag_frame tasks current tid b setSemWait
          (fun f => testBit_setSemWait_other f b hb)
        simpa [os_sem_pend_cs, h, ht] using this
  · by_cases h : (tasks current).t_flags &&& OS_TASK_FLAG_SEM_WAIT ≠ 0
    · have := updFlag_frame tasks current tid b clrSemWait
        (fun f => testBit_clrSemWait_other f b hb)
      simpa [os_sem_pend_resume, h] using this
    · simp [os_sem_pend_resume, h]
  · cases hh : sem.sem_head with
    | nil => simp [os_sem_release, hh]
    | cons rdy rest =>
      have := updFlag_frame tasks rdy tid b clrSemWait
        (fun f => testBit_clrSemWait_other f b hb)
      simpa [os_sem_release, hh] using this

/-- Task table for the frame witness: every task has priority 2 and both
low flag bits set. -/
def exTasksFrame : Nat → OsTask := fun _ => { t_prio := 2, t_flags := 3 }

/-- C10 witness: the frame property at bit 0 for task 0, on a semaphore
whose queue holds task 5, with a pend that blocks (timeout 7). -/
theorem sem_ops_flag_frame_witness :
    (((os_sem_pend_cs exTasksFrame 0 { sem_tokens := 0, sem_head := [5] }
        7).tasks 0).t_flags.testBit 0 =
        ((exTasksFrame 0).t_flags).testBit 0 ∧
      ((os_sem_pend_cs exTasksFrame 0 { sem_tokens := 0, sem_head := [5] }
        7).tasks 0).t_prio = (exTasksFrame 0).t_prio) ∧
    (((os_sem_pend_resume exTasksFrame 0).2 0).t_flags.testBit 0 =
        ((exTasksFrame 0).t_flags).testBit 0 ∧
      ((os_sem_pend_resume exTasksFrame 0).2 0).t_prio =
        (exTasksFrame 0).t_prio) ∧
    (((os_sem_release exTasksFrame 0
        { sem_tokens := 0, sem_head := [5] }).tasks 0).t_flags.testBit 0 =
        ((exTasksFrame 0).t_flags).testBit 0 ∧
      ((os_sem_release exTasksFrame 0
        { sem_tokens := 0, sem_head := [5] }).tasks 0).t_prio =
        (exTasksFrame 0).t_prio) ∧
    (((os_sem_delete exTasksFrame 0 [] { sem_tokens := 0, sem_head := [5] }
        ).tasks 0).t_flags.testBit 0 =
        ((exTasksFrame 0).t_flags).testBit 0 ∧
      ((os_sem_delete exTasksFrame 0 [] { sem_tokens := 0, sem_head := [5] }
        ).tasks 0).t_prio = (exTasksFrame 0).t_prio) :=
  sem_ops_flag_frame exTasksFrame 0 0 0 [] { sem_tokens := 0, sem_head := [5] }
    7 (by decide)

/-! ### C7: token-count accounting over traces -/

/-- An event of a create→pend/release trace: a pend attempt by task
`tid` with the given timeout, or a release performed by task `tid`. -/
inductive SemEvent where
  | pend (tid : Nat) (timeout : Nat)
  | release (tid : Nat)
deriving DecidableEq, Repr

/-- Trace state: the semaphore and task table plus two counters — how
many releases ran, and how many pends (eventually) return `OS_OK`: the
fast-path ones, plus each blocked pend at the moment a release hands it
the token (its resume then sees a cleared flag and reports `OS_OK`). -/
structure Ledger where
  sem : OsSem
  tasks : Nat → OsTask
  releases : Nat
  okPends : Nat

/-- Run one trace event through the corresponding `os_sem` operation. -/
def ledgerStep (st : Ledger) : SemEvent → Ledger
  | .pend tid timeout =>
      { st with
        sem := (os_sem_pend_cs st.tasks tid st.sem timeout).sem
        tasks := (os_sem_pend_cs st.tasks tid st.sem timeout).tasks
        okPends :=
          if (os_sem_pend_cs st.tasks tid st.sem timeout).action =
              .ret OS_OK then st.okPends + 1
          else st.okPends }
  | .release tid =>
      { sem := (os_sem_release st.tasks tid st.sem).sem
        tasks := (os_sem_release st.tasks tid st.sem).tasks
        releases := st.releases + 1
        okPends :=
          if (os_sem_release st.tasks tid st.sem).woken.isSome then
            st.okPends + 1
          else st.okPends }

/-- Number of release events in a trace. -/
def countReleases : List SemEvent → Nat
  | [] => 0
  | .release _ :: es => countReleases es + 1
  | .pend _ _ :: es => countReleases es

/-- The trace's starting state: the semaphore `os_sem_create` builds for
the given initial token count. -/
def initLedger (tasks : Nat → OsTask) (tokens : Nat) : Ledger :=
  { sem := ((os_sem_create (some { sem_tokens := 0, sem_head := [] })
        tokens).2).getD { sem_tokens := 0, sem_head := [] }
    tasks := tasks
    releases := 0
    okPends := 0 }

theorem ledger_releases_count (tr : List SemEvent) (st : Ledger) :
    (tr.foldl ledgerStep st).releases = st.releases + countReleases tr := by
  induction tr generalizing st with
  | nil => simp [countReleases]
  | cons e es ih =>
    simp only [List.foldl_cons]
    rw [ih]
    cases e <;> simp [ledgerStep, countReleases] <;> omega

/-- The accounting invariant `sem_tokens + okPends = tokens0 + releases`
is preserved along any trace whose releases cannot overflow the uint16
token counter. -/
theorem ledger_accounting (tokens0 : Nat) (tr : List SemEvent) (st : Ledger)
    (hP : st.sem.sem_tokens + st.okPends = tokens0 + st.releases)
    (hB : tokens0 + st.releases + countReleases tr < 2 ^ 16) :
    (tr.foldl ledgerStep st).sem.sem_tokens +
        (tr.foldl ledgerStep st).okPends =
      tokens0 + (tr.foldl ledgerStep st).releases := by
  induction tr generalizing st with
  | nil => simpa using hP
  | cons e es ih =>
    simp only [List.foldl_cons]
    cases e with
    | pend tid timeout =>
      apply ih
      · by_cases h : st.sem.sem_tokens ≠ 0
        · simp [ledgerStep, os_sem_pend_cs, h]
          omega
        · by_cases ht : timeout = 0
          · simp [ledgerStep, os_sem_pend_cs, h, ht]
            omega
          · simp [ledgerStep, os_sem_pend_cs, h, ht]
            omega
      · simpa [ledgerStep, countReleases] using hB
    | release tid =>
      have hc : countReleases (SemEvent.release tid :: es) =
          countReleases es + 1 := rfl
      apply ih
      · cases hh : st.sem.sem_head with
        | nil =>
          simp [ledgerStep, os_sem_release, hh]
          omega
        | cons rdy rest =>
          simp [ledgerStep, os_sem_release, hh]
          omega
      · simp only [ledgerStep]
        omega

/-- C7: for every trace `create(tokens)` followed by pends and releases
(with the spec's no-overflow caller discipline), the final token count
equals `tokens + releases − okPends` where `okPends` counts the pends
that return `OS_OK` (fast-path takes plus release hand-offs), `okPends`
never exceeds `tokens + releases` (so the count never goes negative),
and the release counter matches the trace; every prefix of such a trace
is itself such a trace, so the identity holds at every intermediate
point as well. -/
theorem token_count_accounting (tasks : Nat → OsTask) (tokens : Nat)
    (tr : List SemEvent) (hB : tokens + countReleases tr < 2 ^ 16) :
    (tr.foldl ledgerStep (initLedger tasks tokens)).releases =
      countReleases tr ∧
    (tr.foldl ledgerStep (initLedger tasks tokens)).okPends ≤
      tokens + countReleases tr ∧
    (tr.foldl ledgerStep (initLedger tasks tokens)).sem.sem_tokens =
      tokens + countReleases tr -
        (tr.foldl ledgerStep (initLedger tasks tokens)).okPends := by
  have hrel := ledger_releases_count tr (initLedger tasks tokens)
  have h0 : (initLedger tasks tokens).sem.sem_tokens +
      (initLedger tasks tokens).okPends =
      tokens + (initLedger tasks tokens).releases := by
    simp [initLedger, os_sem_create]
    omega
  have hacc := ledger_accounting tokens tr (initLedger tasks tokens) h0
    (by simpa [initLedger] using hB)
  have hrel0 : (initLedger tasks tokens).releases = 0 := rfl
  refine ⟨by omega, by omega, by omega⟩

/-- C7 witness: `create(1)`, then pend (fast-path `OS_OK`), a blocking
pend, a release that hands the token to the blocked waiter, and a release
that banks a token: 2 releases, 2 successful pends, final count
`1 + 2 − 2 = 1`. -/
theorem token_count_accounting_witness :
    (([SemEvent.pend 0 5, SemEvent.pend 1 5, SemEvent.release 2,
        SemEvent.release 2]).foldl ledgerStep
          (initLedger exTasksEq 1)).releases =
      countReleases [SemEvent.pend 0 5, SemEvent.pend 1 5,
        SemEvent.release 2, SemEvent.release 2] ∧
    (([SemEvent.pend 0 5, SemEvent.pend 1 5, SemEvent.release 2,
        SemEvent.release 2]).foldl ledgerStep
          (initLedger exTasksEq 1)).okPends ≤
      1 + countReleases [SemEvent.pend 0 5, SemEvent.pend 1 5,
        SemEvent.release 2, SemEvent.release 2] ∧
    (([SemEvent.pend 0 5, SemEvent.pend 1 5, SemEvent.release 2,
        SemEvent.release 2]).foldl ledgerStep
          (initLedger exTasksEq 1)).sem.sem_tokens =
      1 + countReleases [SemEvent.pend 0 5, SemEvent.pend 1 5,
          SemEvent.release 2, SemEvent.release 2] -
        (([SemEvent.pend 0 5, SemEvent.pend 1 5, SemEvent.release 2,
            SemEvent.release 2]).foldl ledgerStep
              (initLedger exTasksEq 1)).okPends :=
  token_count_accounting exTasksEq 1
    [SemEvent.pend 0 5, SemEvent.pend 1 5, SemEvent.release 2,
      SemEvent.release 2] (by decide)
